import Mathlib

/-!
Shallow embedding of the TradinDashboard repository core:
`TradingStrategy.calculate_indicators` from `app.py` and the data-source
factory / configuration loading from `data_sources.py`.

Numeric cells of a pandas `Series` are modelled by `PVal`: a rational
number, positive or negative infinity, or NaN (the pandas null marker).  Every
`Series` produced by `calculate_indicators` lives over the default
`RangeIndex 0 .. n-1`, so a series is embedded as the function giving
its value at each index, materialised into a `List PVal` of length `n`.
-/

/-- An extended numeric cell of a pandas Series: NaN (the null marker),
positive infinity, negative infinity, or a finite value (modelled as a
rational; the float computations the claims are about stay exact). -/
inductive PVal where
  | nan : PVal
  | inf : PVal
  | ninf : PVal
  | val : ℚ → PVal
  deriving DecidableEq, Repr

/-- IEEE negation: NaN stays NaN, infinities swap, finite values negate. -/
def PVal.neg : PVal → PVal
  | nan => nan
  | inf => ninf
  | ninf => inf
  | val q => val (-q)

/-- IEEE addition: NaN propagates, inf + (-inf) is NaN, an infinity
absorbs finite values, finite values add exactly. -/
def PVal.add : PVal → PVal → PVal
  | nan, _ => nan
  | _, nan => nan
  | inf, ninf => nan
  | ninf, inf => nan
  | inf, _ => inf
  | _, inf => inf
  | ninf, _ => ninf
  | _, ninf => ninf
  | val a, val b => val (a + b)

/-- IEEE subtraction, via addition of the negation. -/
def PVal.sub (a b : PVal) : PVal := a.add b.neg

/-- IEEE division as numpy performs it elementwise: NaN propagates,
inf/inf is NaN, a finite value over an infinity is 0, an infinity over a
finite value keeps (signed) infinity, x/0 is NaN when x = 0 and a signed
infinity otherwise, and finite nonzero denominators divide exactly. -/
def PVal.div : PVal → PVal → PVal
  | nan, _ => nan
  | _, nan => nan
  | inf, inf => nan
  | inf, ninf => nan
  | ninf, inf => nan
  | ninf, ninf => nan
  | inf, val b => if b < 0 then ninf else inf
  | ninf, val b => if b < 0 then inf else ninf
  | val _, inf => val 0
  | val _, ninf => val 0
  | val a, val b =>
      if b = 0 then (if a = 0 then nan else if 0 < a then inf else ninf)
      else val (a / b)

/-- The pandas comparison `x > 0`: False on NaN, true on positive
infinity and positive finite values. -/
def PVal.gt0 : PVal → Bool
  | inf => true
  | val q => decide (0 < q)
  | _ => false

/-- The pandas comparison `x < 0`: False on NaN, true on negative
infinity and negative finite values. -/
def PVal.lt0 : PVal → Bool
  | ninf => true
  | val q => decide (q < 0)
  | _ => false

/-- Null test: true exactly on NaN. -/
def PVal.isNan : PVal → Bool
  | nan => true
  | _ => false

/-- Materialise a series over RangeIndex 0 .. n-1 from its value at each
index. -/
def seriesOfFn (n : ℕ) (f : ℕ → PVal) : List PVal :=
  (List.range n).map f

/-- Cell i of `delta = data[Close].diff()`: NaN at index 0, otherwise
close[i] - close[i-1]. -/
def deltaIdx (close : List ℚ) (i : ℕ) : PVal :=
  if i = 0 then PVal.nan else PVal.val (close.getD i 0 - close.getD (i - 1) 0)

/-- Cell i of `delta.where(delta > 0, 0)`: the cell is kept where the
condition holds and replaced by 0 elsewhere; the NaN at index 0 compares
as not-greater-than-0, so it is replaced by 0 as well. -/
def gainRawIdx (close : List ℚ) (i : ℕ) : PVal :=
  if (deltaIdx close i).gt0 then deltaIdx close i else PVal.val 0

/-- Cell i of `(-delta.where(delta < 0, 0))`: keep the cell where it is
negative (NaN compares false and becomes 0), then negate. -/
def lossRawIdx (close : List ℚ) (i : ℕ) : PVal :=
  (if (deltaIdx close i).lt0 then deltaIdx close i else PVal.val 0).neg

/-- Cell i of `s.rolling(window=w).mean()` where cell j of s is f j.
With the default min_periods (= the window size) the cell is NaN until w
observations exist, i.e. until i + 1 >= w; otherwise it is the mean of
the cells at indices i-w+1 .. i, NaN if any of them is NaN. -/
def rollingMeanIdx (w : ℕ) (f : ℕ → PVal) (i : ℕ) : PVal :=
  if w ≤ i + 1 then
    let win := (List.range' (i + 1 - w) w).map f
    if win.any PVal.isNan then PVal.nan
    else (win.foldr PVal.add (PVal.val 0)).div (PVal.val (w : ℚ))
  else PVal.nan

/-- Cell i of `data[Close].rolling(window=w).mean()`. -/
def smaIdx (close : List ℚ) (w : ℕ) (i : ℕ) : PVal :=
  rollingMeanIdx w (fun j => PVal.val (close.getD j 0)) i

/-- Cell i of `gain = (delta.where(delta > 0, 0)).rolling(window=rsi_period).mean()`. -/
def avgGainIdx (close : List ℚ) (p : ℕ) (i : ℕ) : PVal :=
  rollingMeanIdx p (gainRawIdx close) i

/-- Cell i of `loss = (-delta.where(delta < 0, 0)).rolling(window=rsi_period).mean()`. -/
def avgLossIdx (close : List ℚ) (p : ℕ) (i : ℕ) : PVal :=
  rollingMeanIdx p (lossRawIdx close) i

/-- Cell i of `rs = gain / loss` (elementwise aligned division). -/
def rsIdx (close : List ℚ) (p : ℕ) (i : ℕ) : PVal :=
  (avgGainIdx close p i).div (avgLossIdx close p i)

/-- Cell i of `signals[RSI] = 100 - (100 / (1 + rs))`. -/
def rsiIdx (close : List ℚ) (p : ℕ) (i : ℕ) : PVal :=
  (PVal.val 100).sub ((PVal.val 100).div ((PVal.val 1).add (rsIdx close p i)))

/-- The `signals` DataFrame built by calculate_indicators: three columns
aligned to the input index. -/
structure Signals where
  SMA_short : List PVal
  SMA_long : List PVal
  RSI : List PVal
  deriving DecidableEq, Repr

/-- TradingStrategy.calculate_indicators (app.py lines 29-44): builds a
fresh `signals` frame over the input index and fills the SMA_short,
SMA_long and RSI columns.  The input frame is represented by its Close
column, a list of (exact) prices. -/
def calculate_indicators (close : List ℚ) (short_ma long_ma rsi_period : ℕ) : Signals :=
  { SMA_short := seriesOfFn close.length (smaIdx close short_ma)
    SMA_long := seriesOfFn close.length (smaIdx close long_ma)
    RSI := seriesOfFn close.length (rsiIdx close rsi_period) }

/-- State-passing form of calculate_indicators for the frame property:
the input column is threaded through the call and returned next to the
result.  Every pandas operation the body uses (`.diff()`, `.where()`,
`.rolling().mean()`, constructing `signals` and assigning its columns)
returns a fresh object and leaves its receiver untouched, so the
post-state of the input equals the initial state. -/
def calculate_indicators_frame (data : List ℚ) (short_ma long_ma rsi_period : ℕ) :
    Signals × List ℚ :=
  (calculate_indicators data short_ma long_ma rsi_period, data)

/-- Rational view of cell i of `delta.where(delta > 0, 0)` (every cell
of that series is finite). -/
def gainQ (close : List ℚ) (i : ℕ) : ℚ :=
  if i = 0 then 0 else max (close.getD i 0 - close.getD (i - 1) 0) 0

/-- Rational view of cell i of `(-delta.where(delta < 0, 0))`. -/
def lossQ (close : List ℚ) (i : ℕ) : ℚ :=
  if i = 0 then 0 else max (-(close.getD i 0 - close.getD (i - 1) 0)) 0

/-- Rational value of the rolling gain mean at a defined index. -/
def avgGainQ (close : List ℚ) (p : ℕ) (i : ℕ) : ℚ :=
  (((List.range' (i + 1 - p) p).map (gainQ close)).sum) / p

/-- Rational value of the rolling loss mean at a defined index. -/
def avgLossQ (close : List ℚ) (p : ℕ) (i : ℕ) : ℚ :=
  (((List.range' (i + 1 - p) p).map (lossQ close)).sum) / p

/-- The data-source variants constructed by the factory
(data_sources.py): YFinanceSource takes no credentials,
AlphaVantageSource stores the api_key given at construction. -/
inductive DataSource where
  | yfinance : DataSource
  | alphavantage (api_key : String) : DataSource
  deriving DecidableEq, Repr

/-- The error raised by the factory (a ValueError in the source; the
spec taxonomy calls every construction-time error ConfigurationError),
carrying its message. -/
inductive DSError where
  | configurationError (msg : String) : DSError
  deriving DecidableEq, Repr

/-- Python str.lower() as used on provider names: each character is
lowered (ASCII letters map down, everything else is unchanged). -/
def pyLower (s : String) : String :=
  String.mk (s.data.map Char.toLower)

/-- DataSourceFactory.create_data_source (data_sources.py lines 66-86):
dispatch on the lower-cased source_type; the alphavantage branch reads
api_key from kwargs (absent => None) and raises when it is falsy (None
or the empty string); any other name raises with the original name in
the message.  Raising a ValueError is modelled by the error branch. -/
def create_data_source (source_type : String) (api_key : Option String) :
    Except DSError DataSource :=
  if pyLower source_type = "yfinance" then
    Except.ok DataSource.yfinance
  else if pyLower source_type = "alphavantage" then
    match api_key with
    | some k =>
        if k = "" then Except.error (DSError.configurationError "API key required for Alpha Vantage")
        else Except.ok (DataSource.alphavantage k)
    | none => Except.error (DSError.configurationError "API key required for Alpha Vantage")
  else
    Except.error (DSError.configurationError ("Unknown data source type: " ++ source_type))

/-- The `parameters` mapping of a data_source configuration entry; only
its api_key key is ever read (via kwargs.get of api_key). -/
structure SourceParams where
  api_key : Option String := none
  deriving DecidableEq, Repr

/-- A `data_source` configuration entry: a provider name and an optional
parameters mapping. -/
structure SourceConfig where
  provider : String
  parameters : Option SourceParams := none
  deriving DecidableEq, Repr

/-- A parsed configuration document: it may or may not carry the
top-level data_source key. -/
structure ConfigDoc where
  data_source : Option SourceConfig := none
  deriving DecidableEq, Repr

/-- load_config (data_sources.py lines 89-94): the parsed file contents
when the file exists, the empty document otherwise.  The filesystem read
is modelled by the Option argument (none = file absent). -/
def load_config (file : Option ConfigDoc) : ConfigDoc :=
  match file with
  | some doc => doc
  | none => {}

/-- get_data_source (data_sources.py lines 96-104): loads the
configuration, defaults a missing data_source key to
provider yfinance, and hands provider and parameters to the
factory. -/
def get_data_source (file : Option ConfigDoc) : Except DSError DataSource :=
  let config := load_config file
  let source_config := config.data_source.getD { provider := "yfinance" }
  create_data_source source_config.provider
    ((source_config.parameters.getD {}).api_key)

/-- AlphaVantageSource.get_data (data_sources.py lines 54-57): the body
is `pass`, so the call returns Python None: no data frame and no raised
error.  The absent frame is the none result. -/
def AlphaVantageSource.get_data (api_key ticker start_date end_date : String) :
    Option (List ℚ) := none

/-- AlphaVantageSource.validate_connection (data_sources.py lines
59-61): the body is `pass`, so the call returns None instead of a
boolean. -/
def AlphaVantageSource.validate_connection (api_key : String) : Option Bool := none

instance : DecidableEq (Except DSError DataSource) := fun a b =>
  match a, b with
  | Except.ok x, Except.ok y =>
      if h : x = y then Decidable.isTrue (by rw [h])
      else Decidable.isFalse (fun hc => h (Except.ok.inj hc))
  | Except.error x, Except.error y =>
      if h : x = y then Decidable.isTrue (by rw [h])
      else Decidable.isFalse (fun hc => h (Except.error.inj hc))
  | Except.ok _, Except.error _ => Decidable.isFalse (fun hc => Except.noConfusion hc)
  | Except.error _, Except.ok _ => Decidable.isFalse (fun hc => Except.noConfusion hc)

/-! Helper lemmas about the embedding. -/

theorem seriesOfFn_getD (n : ℕ) (f : ℕ → PVal) (i : ℕ) (d : PVal) (h : i < n) :
    (seriesOfFn n f).getD i d = f i := by
  simp [seriesOfFn, List.getD_eq_getElem?_getD, List.getElem?_map, List.getElem?_range h]

theorem mem_range'_iff (s n j : ℕ) : j ∈ List.range' s n ↔ s ≤ j ∧ j < s + n := by
  rw [List.mem_range']
  constructor
  · rintro ⟨i, hi, rfl⟩
    omega
  · intro h
    exact ⟨j - s, by omega, by omega⟩

theorem foldr_add_val (idxs : List ℕ) (f : ℕ → PVal) (g : ℕ → ℚ)
    (h : ∀ j ∈ idxs, f j = PVal.val (g j)) :
    (idxs.map f).foldr PVal.add (PVal.val 0) = PVal.val ((idxs.map g).sum) := by
  induction idxs with
  | nil => simp
  | cons a l ih =>
      simp only [List.map_cons, List.foldr_cons, List.sum_cons]
      rw [h a (List.mem_cons_self a l), ih (fun j hj => h j (List.mem_cons_of_mem a hj))]
      simp [PVal.add]

theorem any_isNan_eq_false (idxs : List ℕ) (f : ℕ → PVal) (g : ℕ → ℚ)
    (h : ∀ j ∈ idxs, f j = PVal.val (g j)) :
    (idxs.map f).any PVal.isNan = false := by
  rw [List.any_eq_false]
  intro x hx
  rcases List.mem_map.mp hx with ⟨j, hj, rfl⟩
  rw [h j hj]
  simp [PVal.isNan]

theorem rollingMeanIdx_eq_val (w : ℕ) (f : ℕ → PVal) (g : ℕ → ℚ) (i : ℕ)
    (hw : 0 < w) (hwi : w ≤ i + 1)
    (h : ∀ j, i + 1 - w ≤ j → j < i + 1 → f j = PVal.val (g j)) :
    rollingMeanIdx w f i
      = PVal.val ((((List.range' (i + 1 - w) w).map g).sum) / w) := by
  have hmem : ∀ j ∈ List.range' (i + 1 - w) w, f j = PVal.val (g j) := by
    intro j hj
    rw [mem_range'_iff] at hj
    exact h j hj.1 (by omega)
  have hwq : ((w : ℚ)) ≠ 0 := by
    exact_mod_cast Nat.pos_iff_ne_zero.mp hw
  unfold rollingMeanIdx
  rw [if_pos hwi]
  simp only [any_isNan_eq_false _ _ g hmem, Bool.false_eq_true, if_false,
    foldr_add_val _ _ g hmem]
  simp [PVal.div, hwq]

theorem rollingMeanIdx_nan (w : ℕ) (f : ℕ → PVal) (i : ℕ) (h : i + 1 < w) :
    rollingMeanIdx w f i = PVal.nan := by
  unfold rollingMeanIdx
  rw [if_neg (by omega)]

theorem PVal.nan_div (x : PVal) : PVal.div PVal.nan x = PVal.nan := by
  cases x <;> rfl

theorem PVal.add_nan (x : PVal) : PVal.add x PVal.nan = PVal.nan := by
  cases x <;> rfl

theorem PVal.div_nan (x : PVal) : PVal.div x PVal.nan = PVal.nan := by
  cases x <;> rfl

theorem PVal.sub_nan (x : PVal) : PVal.sub x PVal.nan = PVal.nan := by
  cases x <;> rfl

theorem gainRawIdx_eq (close : List ℚ) (i : ℕ) :
    gainRawIdx close i = PVal.val (gainQ close i) := by
  unfold gainRawIdx gainQ deltaIdx
  by_cases h0 : i = 0
  · simp [h0, PVal.gt0]
  · simp only [if_neg h0]
    generalize close.getD i 0 - close.getD (i - 1) 0 = d
    by_cases hd : (0 : ℚ) < d
    · have hb : (PVal.val d).gt0 = true := by
        simp [PVal.gt0, hd]
      simp [hb, max_eq_left hd.le]
    · have hb : (PVal.val d).gt0 = false := by
        simp [PVal.gt0, hd]
      simp [hb, max_eq_right (not_lt.mp hd)]

theorem lossRawIdx_eq (close : List ℚ) (i : ℕ) :
    lossRawIdx close i = PVal.val (lossQ close i) := by
  unfold lossRawIdx lossQ deltaIdx
  by_cases h0 : i = 0
  · simp [h0, PVal.lt0, PVal.neg]
  · simp only [if_neg h0]
    generalize close.getD i 0 - close.getD (i - 1) 0 = d
    by_cases hd : d < 0
    · have hnn : (0:ℚ) ≤ -d := by linarith
      have hb : (PVal.val d).lt0 = true := by
        simp [PVal.lt0, hd]
      simp [hb, PVal.neg, max_eq_left hnn]
    · have hnp : -d ≤ 0 := by
        have := not_lt.mp hd
        linarith
      have hb : (PVal.val d).lt0 = false := by
        simp [PVal.lt0, hd]
      simp [hb, PVal.neg, max_eq_right hnp]

theorem gainQ_nonneg (close : List ℚ) (i : ℕ) : 0 ≤ gainQ close i := by
  unfold gainQ
  split
  · exact le_refl 0
  · exact le_max_right _ _

theorem lossQ_nonneg (close : List ℚ) (i : ℕ) : 0 ≤ lossQ close i := by
  unfold lossQ
  split
  · exact le_refl 0
  · exact le_max_right _ _

theorem avgGainIdx_eq (close : List ℚ) (p i : ℕ) (hp : 0 < p) (hpi : p ≤ i + 1) :
    avgGainIdx close p i = PVal.val (avgGainQ close p i) := by
  unfold avgGainIdx avgGainQ
  exact rollingMeanIdx_eq_val p (gainRawIdx close) (gainQ close) i hp hpi
    (fun j _ _ => gainRawIdx_eq close j)

theorem avgLossIdx_eq (close : List ℚ) (p i : ℕ) (hp : 0 < p) (hpi : p ≤ i + 1) :
    avgLossIdx close p i = PVal.val (avgLossQ close p i) := by
  unfold avgLossIdx avgLossQ
  exact rollingMeanIdx_eq_val p (lossRawIdx close) (lossQ close) i hp hpi
    (fun j _ _ => lossRawIdx_eq close j)

theorem avgGainQ_nonneg (close : List ℚ) (p i : ℕ) : 0 ≤ avgGainQ close p i := by
  unfold avgGainQ
  apply div_nonneg _ (by positivity)
  apply List.sum_nonneg
  intro x hx
  rcases List.mem_map.mp hx with ⟨j, _, rfl⟩
  exact gainQ_nonneg close j

theorem avgLossQ_nonneg (close : List ℚ) (p i : ℕ) : 0 ≤ avgLossQ close p i := by
  unfold avgLossQ
  apply div_nonneg _ (by positivity)
  apply List.sum_nonneg
  intro x hx
  rcases List.mem_map.mp hx with ⟨j, _, rfl⟩
  exact lossQ_nonneg close j

theorem rsiIdx_eq (close : List ℚ) (p i : ℕ) (hp : 0 < p) (hpi : p ≤ i + 1) :
    rsiIdx close p i =
      (if avgLossQ close p i = 0 then
        (if avgGainQ close p i = 0 then PVal.nan else PVal.val 100)
       else PVal.val (100 - 100 / (1 + avgGainQ close p i / avgLossQ close p i))) := by
  have hG := avgGainQ_nonneg close p i
  have hL := avgLossQ_nonneg close p i
  unfold rsiIdx rsIdx
  rw [avgGainIdx_eq close p i hp hpi, avgLossIdx_eq close p i hp hpi]
  by_cases hL0 : avgLossQ close p i = 0
  · rw [if_pos hL0, hL0]
    by_cases hG0 : avgGainQ close p i = 0
    · rw [if_pos hG0, hG0]
      simp [PVal.div, PVal.add, PVal.sub, PVal.neg]
    · rw [if_neg hG0]
      have hGpos : 0 < avgGainQ close p i := lt_of_le_of_ne hG (Ne.symm hG0)
      have h1 : PVal.div (PVal.val (avgGainQ close p i)) (PVal.val 0) = PVal.inf := by
        simp [PVal.div, hG0, hGpos]
      rw [h1]
      show PVal.val (100 + -(0:ℚ)) = PVal.val 100
      norm_num
  · rw [if_neg hL0]
    have hLpos : 0 < avgLossQ close p i := lt_of_le_of_ne hL (Ne.symm hL0)
    have hq : (0:ℚ) ≤ avgGainQ close p i / avgLossQ close p i := div_nonneg hG hL
    have h1q : (1:ℚ) + avgGainQ close p i / avgLossQ close p i ≠ 0 := by positivity
    have h1 : PVal.div (PVal.val (avgGainQ close p i)) (PVal.val (avgLossQ close p i))
        = PVal.val (avgGainQ close p i / avgLossQ close p i) := by
      simp [PVal.div, hL0]
    rw [h1]
    have h2 : PVal.add (PVal.val 1) (PVal.val (avgGainQ close p i / avgLossQ close p i))
        = PVal.val (1 + avgGainQ close p i / avgLossQ close p i) := by
      simp [PVal.add]
    rw [h2]
    have h3 : PVal.div (PVal.val 100)
        (PVal.val (1 + avgGainQ close p i / avgLossQ close p i))
        = PVal.val (100 / (1 + avgGainQ close p i / avgLossQ close p i)) := by
      simp [PVal.div, h1q]
    rw [h3]
    show PVal.val (100 + -(100 / (1 + avgGainQ close p i / avgLossQ close p i)))
        = PVal.val (100 - 100 / (1 + avgGainQ close p i / avgLossQ close p i))
    rw [← sub_eq_add_neg]

theorem rsiIdx_nan_of_lt (close : List ℚ) (p i : ℕ) (h : i + 1 < p) :
    rsiIdx close p i = PVal.nan := by
  unfold rsiIdx rsIdx avgGainIdx
  rw [rollingMeanIdx_nan p (gainRawIdx close) i h, PVal.nan_div, PVal.add_nan,
    PVal.div_nan, PVal.sub_nan]

theorem RSI_getD (close : List ℚ) (s l p i : ℕ) (h : i < close.length) :
    (calculate_indicators close s l p).RSI.getD i PVal.nan = rsiIdx close p i := by
  unfold calculate_indicators
  exact seriesOfFn_getD _ _ _ _ h

theorem SMA_short_getD (close : List ℚ) (s l p i : ℕ) (h : i < close.length) :
    (calculate_indicators close s l p).SMA_short.getD i PVal.nan = smaIdx close s i := by
  unfold calculate_indicators
  exact seriesOfFn_getD _ _ _ _ h

theorem smaIdx_eq_val (close : List ℚ) (w i : ℕ) (hw : 0 < w) (hwi : w ≤ i + 1) :
    smaIdx close w i
      = PVal.val ((((List.range' (i + 1 - w) w).map (fun j => close.getD j 0)).sum) / w) := by
  unfold smaIdx
  exact rollingMeanIdx_eq_val w _ _ i hw hwi (fun j _ _ => rfl)

theorem countP_range_ge (w n : ℕ) :
    (List.range n).countP (fun i => decide (w ≤ i + 1)) = n - (w - 1) := by
  induction n with
  | zero => simp
  | succ n ih =>
      rw [List.range_succ, List.countP_append, ih, List.countP_cons, List.countP_nil]
      by_cases h : w ≤ n + 1
      · simp only [h]
        simp
        omega
      · simp only [h]
        simp
        omega

theorem getD_replicate_of_lt (n : ℕ) (c : ℚ) (j : ℕ) (h : j < n) :
    (List.replicate n c).getD j 0 = c := by
  rw [List.getD_eq_getElem?_getD, List.getElem?_replicate_of_lt h]
  rfl

theorem gainQ_replicate (c : ℚ) (n j : ℕ) (hj : j < n) :
    gainQ (List.replicate n c) j = 0 := by
  unfold gainQ
  by_cases h0 : j = 0
  · simp [h0]
  · rw [if_neg h0, getD_replicate_of_lt n c j hj, getD_replicate_of_lt n c (j - 1) (by omega)]
    simp

theorem lossQ_replicate (c : ℚ) (n j : ℕ) (hj : j < n) :
    lossQ (List.replicate n c) j = 0 := by
  unfold lossQ
  by_cases h0 : j = 0
  · simp [h0]
  · rw [if_neg h0, getD_replicate_of_lt n c j hj, getD_replicate_of_lt n c (j - 1) (by omega)]
    simp

theorem avgGainQ_replicate (c : ℚ) (n p i : ℕ) (hpi : p ≤ i + 1) (hi : i < n) :
    avgGainQ (List.replicate n c) p i = 0 := by
  unfold avgGainQ
  have hs : ((List.range' (i + 1 - p) p).map (gainQ (List.replicate n c))).sum = 0 := by
    apply List.sum_eq_zero
    intro x hx
    rcases List.mem_map.mp hx with ⟨j, hj, rfl⟩
    rw [mem_range'_iff] at hj
    exact gainQ_replicate c n j (by omega)
  rw [hs, zero_div]

theorem avgLossQ_replicate (c : ℚ) (n p i : ℕ) (hpi : p ≤ i + 1) (hi : i < n) :
    avgLossQ (List.replicate n c) p i = 0 := by
  unfold avgLossQ
  have hs : ((List.range' (i + 1 - p) p).map (lossQ (List.replicate n c))).sum = 0 := by
    apply List.sum_eq_zero
    intro x hx
    rcases List.mem_map.mp hx with ⟨j, hj, rfl⟩
    rw [mem_range'_iff] at hj
    exact lossQ_replicate c n j (by omega)
  rw [hs, zero_div]

theorem gainQ_of_decreasing (close : List ℚ)
    (hdec : List.Chain' (fun a b => b < a) close) (j : ℕ) (hj : j < close.length) :
    gainQ close j = 0 := by
  unfold gainQ
  by_cases h0 : j = 0
  · simp [h0]
  · rw [if_neg h0]
    have h1 : j - 1 < close.length - 1 := by omega
    have hlt := List.chain'_iff_get.mp hdec (j - 1) h1
    have hj1 : j - 1 + 1 = j := by omega
    simp only [hj1, List.get_eq_getElem] at hlt
    rw [List.getD_eq_getElem close 0 (show j < close.length by omega),
      List.getD_eq_getElem close 0 (show j - 1 < close.length by omega)]
    exact max_eq_right (by linarith)

theorem avgGainQ_of_decreasing (close : List ℚ)
    (hdec : List.Chain' (fun a b => b < a) close) (p i : ℕ)
    (hpi : p ≤ i + 1) (hi : i < close.length) :
    avgGainQ close p i = 0 := by
  unfold avgGainQ
  have hs : ((List.range' (i + 1 - p) p).map (gainQ close)).sum = 0 := by
    apply List.sum_eq_zero
    intro x hx
    rcases List.mem_map.mp hx with ⟨j, hj, rfl⟩
    rw [mem_range'_iff] at hj
    exact gainQ_of_decreasing close hdec j (by omega)
  rw [hs, zero_div]

/-! Claim theorems. -/

/-- Claim C2, counterexample: with rsi_period = 2 and closes
[10, 12, 11, 13], RSI is already defined at index 1 < 2 (with value
100), because `delta.where(delta > 0, 0)` turns the undefined delta[0]
into 0 and the rolling mean then has a full window one step early;
the claim as stated says RSI must be null at every index below the
period. -/
theorem rsi_defined_before_period_cex :
    (calculate_indicators [10, 12, 11, 13] 20 50 2).RSI.getD 1 PVal.nan = PVal.val 100
      ∧ (calculate_indicators [10, 12, 11, 13] 20 50 2).RSI.getD 1 PVal.nan ≠ PVal.nan := by
  have h : (calculate_indicators [10, 12, 11, 13] 20 50 2).RSI.getD 1 PVal.nan
      = PVal.val 100 := by
    norm_num [calculate_indicators, seriesOfFn, rsiIdx, rsIdx, avgGainIdx, avgLossIdx,
      rollingMeanIdx, gainRawIdx, lossRawIdx, deltaIdx, PVal.gt0, PVal.lt0,
      PVal.add, PVal.div, PVal.sub, PVal.neg, PVal.isNan, List.range',
      List.getD, List.range_eq_range']
  refine ⟨h, ?_⟩
  rw [h]
  simp

/-- Claim C2 (amended): the RSI column is null at every index i with
i < p - 1, and at an index i >= p - 1 (inside the series) it is defined
exactly when the rolling gain mean and the rolling loss mean at i are
not both zero; in particular the first possibly-defined RSI index is
p - 1, not p, because the code replaces the undefined delta[0] by zero
gain and zero loss. -/
theorem rsi_defined_iff_window_and_not_zero_zero (close : List ℚ)
    (short_ma long_ma p i : ℕ) (hp : 0 < p) (hi : i < close.length) :
    ((calculate_indicators close short_ma long_ma p).RSI.getD i PVal.nan ≠ PVal.nan)
      ↔ (p - 1 ≤ i ∧
          ¬(avgGainIdx close p i = PVal.val 0 ∧ avgLossIdx close p i = PVal.val 0)) := by
  rw [RSI_getD close short_ma long_ma p i hi]
  by_cases hpi : p ≤ i + 1
  · have hple : p - 1 ≤ i := by omega
    rw [rsiIdx_eq close p i hp hpi, avgGainIdx_eq close p i hp hpi,
      avgLossIdx_eq close p i hp hpi]
    by_cases hL0 : avgLossQ close p i = 0
    · by_cases hG0 : avgGainQ close p i = 0
      · simp [hL0, hG0, hple]
      · simp [hL0, hG0, hple]
    · simp [hL0, hple]
  · rw [rsiIdx_nan_of_lt close p i (by omega)]
    constructor
    · intro hne
      exact absurd rfl hne
    · rintro ⟨h1, _⟩
      omega

/-- Claim C2, witness: at closes [10, 12, 11, 13] with p = 2 the
characterization applies at index 1 and shows the RSI cell there is
defined. -/
theorem rsi_defined_iff_witness :
    (calculate_indicators [10, 12, 11, 13] 20 50 2).RSI.getD 1 PVal.nan ≠ PVal.nan :=
  (rsi_defined_iff_window_and_not_zero_zero [10, 12, 11, 13] 20 50 2 1 (by norm_num)
      (by norm_num)).mpr
    (by
      refine ⟨by norm_num, ?_⟩
      rintro ⟨hG, _⟩
      have : avgGainIdx [10, 12, 11, 13] 2 1 = PVal.val 1 := by
        norm_num [avgGainIdx, rollingMeanIdx, gainRawIdx, deltaIdx, PVal.gt0,
          PVal.add, PVal.div, PVal.isNan, List.range', List.getD]
      rw [this] at hG
      simp at hG)

/-- Claim C3: for a window w with 0 < w <= n, the SMA column has
exactly n - w + 1 non-null cells; cell i equals the mean of
close[i-w+1 .. i] when i >= w - 1 and is null when i < w - 1. -/
theorem sma_window_spec (close : List ℚ) (w long_ma rsi_period : ℕ)
    (hw : 0 < w) (hwn : w ≤ close.length) :
    ((calculate_indicators close w long_ma rsi_period).SMA_short.countP (fun x => !x.isNan)
        = close.length - w + 1)
  ∧ (∀ i, w - 1 ≤ i → i < close.length →
      (calculate_indicators close w long_ma rsi_period).SMA_short.getD i PVal.nan
        = PVal.val ((((List.range' (i + 1 - w) w).map (fun j => close.getD j 0)).sum) / w))
  ∧ (∀ i, i < w - 1 →
      (calculate_indicators close w long_ma rsi_period).SMA_short.getD i PVal.nan
        = PVal.nan) := by
  refine ⟨?_, ?_, ?_⟩
  · show ((seriesOfFn close.length (smaIdx close w)).countP (fun x => !x.isNan))
        = close.length - w + 1
    unfold seriesOfFn
    rw [List.countP_map]
    have hiff : ∀ x ∈ List.range close.length,
        (((fun v => !v.isNan) ∘ smaIdx close w) x) ↔ ((fun i => decide (w ≤ i + 1)) x) := by
      intro i _
      by_cases h : w ≤ i + 1
      · rw [Function.comp_apply, smaIdx_eq_val close w i hw h]
        simp [PVal.isNan, h]
      · rw [Function.comp_apply]
        unfold smaIdx
        rw [rollingMeanIdx_nan w _ i (by omega)]
        simp [PVal.isNan, h]
    rw [List.countP_congr hiff, countP_range_ge]
    omega
  · intro i h1 h2
    rw [SMA_short_getD close w long_ma rsi_period i h2]
    exact smaIdx_eq_val close w i hw (by omega)
  · intro i hlt
    rw [SMA_short_getD close w long_ma rsi_period i (by omega)]
    unfold smaIdx
    exact rollingMeanIdx_nan w _ i (by omega)

/-- Claim C3, witness: on closes [10,11,12,11,10,9,10,11,12,13] with
short_ma = 3 the spec example holds: SMA_short[2] = 11 while
SMA_short[0] and SMA_short[1] are null. -/
theorem sma_window_spec_witness :
    (calculate_indicators [10, 11, 12, 11, 10, 9, 10, 11, 12, 13] 3 50 14).SMA_short.getD 2
        PVal.nan = PVal.val 11
      ∧ (calculate_indicators [10, 11, 12, 11, 10, 9, 10, 11, 12, 13] 3 50 14).SMA_short.getD 0
          PVal.nan = PVal.nan
      ∧ (calculate_indicators [10, 11, 12, 11, 10, 9, 10, 11, 12, 13] 3 50 14).SMA_short.getD 1
          PVal.nan = PVal.nan := by
  have h := sma_window_spec [10, 11, 12, 11, 10, 9, 10, 11, 12, 13] 3 50 14
    (by norm_num) (by norm_num)
  refine ⟨?_, h.2.2 0 (by norm_num), h.2.2 1 (by norm_num)⟩
  rw [h.2.1 2 (by norm_num) (by norm_num)]
  norm_num [List.range', List.getD]

/-- Claim C4: for strictly decreasing closes with at least p + 1
samples, every non-null RSI cell equals 0 (all gains are zero, so at a
defined index the loss mean is nonzero and RS = 0, giving
RSI = 100 - 100/(1+0) = 0, not the division-by-zero case). -/
theorem rsi_decreasing_zero (close : List ℚ) (short_ma long_ma p i : ℕ)
    (hp : 0 < p) (hdec : List.Chain' (fun a b => b < a) close)
    (hlen : p + 1 ≤ close.length) (hi : i < close.length)
    (hdef : (calculate_indicators close short_ma long_ma p).RSI.getD i PVal.nan
        ≠ PVal.nan) :
    (calculate_indicators close short_ma long_ma p).RSI.getD i PVal.nan = PVal.val 0 := by
  rw [RSI_getD close short_ma long_ma p i hi] at hdef ⊢
  by_cases hpi : p ≤ i + 1
  · have hG : avgGainQ close p i = 0 := avgGainQ_of_decreasing close hdec p i hpi hi
    rw [rsiIdx_eq close p i hp hpi] at hdef ⊢
    by_cases hL0 : avgLossQ close p i = 0
    · exact absurd (by simp [hL0, hG]) hdef
    · rw [if_neg hL0, hG]
      norm_num
  · exact absurd (rsiIdx_nan_of_lt close p i (by omega)) hdef

/-- Claim C4, witness: closes [10, 9, 8] with p = 2 are strictly
decreasing over p + 1 samples, and the defined RSI cell at index 2 is 0. -/
theorem rsi_decreasing_zero_witness :
    (calculate_indicators [10, 9, 8] 20 50 2).RSI.getD 2 PVal.nan = PVal.val 0 :=
  rsi_decreasing_zero [10, 9, 8] 20 50 2 2 (by norm_num)
    (by norm_num [List.chain'_cons]) (by norm_num) (by norm_num)
    (by
      norm_num [calculate_indicators, seriesOfFn, rsiIdx, rsIdx, avgGainIdx, avgLossIdx,
        rollingMeanIdx, gainRawIdx, lossRawIdx, deltaIdx, PVal.gt0, PVal.lt0,
        PVal.add, PVal.div, PVal.sub, PVal.neg, PVal.isNan, List.range',
        List.getD, List.range_eq_range']
      simp)

/-- Claim C1, counterexample: on the constant series [5, 5, 5] with
rsi_period = 2, the rolling loss mean at index 2 is 0, yet rs there is
NaN (the division is 0/0), not +infinity, and the RSI cell is null
rather than 100 -- the claimed infinity convention does not hold when
the gain mean is zero as well. -/
theorem rsi_constant_avgLoss_zero_nan_cex :
    avgLossIdx [5, 5, 5] 2 2 = PVal.val 0
      ∧ rsIdx [5, 5, 5] 2 2 = PVal.nan
      ∧ rsIdx [5, 5, 5] 2 2 ≠ PVal.inf
      ∧ (calculate_indicators [5, 5, 5] 20 50 2).RSI.getD 2 PVal.nan = PVal.nan := by
  have h1 : avgLossIdx [5, 5, 5] 2 2 = PVal.val 0 := by
    norm_num [avgLossIdx, rollingMeanIdx, lossRawIdx, deltaIdx, PVal.lt0, PVal.neg,
      PVal.add, PVal.div, PVal.isNan, List.range', List.getD]
  have h2 : rsIdx [5, 5, 5] 2 2 = PVal.nan := by
    norm_num [rsIdx, avgGainIdx, avgLossIdx, rollingMeanIdx, gainRawIdx, lossRawIdx,
      deltaIdx, PVal.gt0, PVal.lt0, PVal.neg, PVal.add, PVal.div, PVal.isNan,
      List.range', List.getD]
  have h4 : (calculate_indicators [5, 5, 5] 20 50 2).RSI.getD 2 PVal.nan = PVal.nan := by
    norm_num [calculate_indicators, seriesOfFn, rsiIdx, rsIdx, avgGainIdx, avgLossIdx,
      rollingMeanIdx, gainRawIdx, lossRawIdx, deltaIdx, PVal.gt0, PVal.lt0,
      PVal.add, PVal.div, PVal.sub, PVal.neg, PVal.isNan, List.range',
      List.getD, List.range_eq_range']
  refine ⟨h1, h2, ?_, h4⟩
  rw [h2]
  simp

/-- Claim C1 (amended): on a constant series all gains and losses are
zero, so rs = 0/0 is NaN and every RSI cell is null -- RSI = 100 holds
only vacuously, there being no defined index; rs is +infinity (and RSI
saturates to 100) exactly in the cases where the rolling loss mean is 0
while the rolling gain mean is positive. -/
theorem rsi_constant_all_nan_and_inf_saturation :
    (∀ (c : ℚ) (n short_ma long_ma p i : ℕ), 0 < p → i < n →
        (calculate_indicators (List.replicate n c) short_ma long_ma p).RSI.getD i PVal.nan
          = PVal.nan)
  ∧ (∀ (close : List ℚ) (short_ma long_ma p i : ℕ) (g : ℚ), 0 < p → i < close.length →
        avgGainIdx close p i = PVal.val g → 0 < g →
        avgLossIdx close p i = PVal.val 0 →
        rsIdx close p i = PVal.inf ∧
          (calculate_indicators close short_ma long_ma p).RSI.getD i PVal.nan
            = PVal.val 100) := by
  constructor
  · intro c n short_ma long_ma p i hp hi
    have hlen : i < (List.replicate n c).length := by
      rw [List.length_replicate]
      exact hi
    rw [RSI_getD (List.replicate n c) short_ma long_ma p i hlen]
    by_cases hpi : p ≤ i + 1
    · rw [rsiIdx_eq (List.replicate n c) p i hp hpi,
        avgGainQ_replicate c n p i hpi hi, avgLossQ_replicate c n p i hpi hi]
      simp
    · exact rsiIdx_nan_of_lt (List.replicate n c) p i (by omega)
  · intro close short_ma long_ma p i g hp hi hG hg hL
    have hpi : p ≤ i + 1 := by
      by_contra hc
      rw [avgGainIdx] at hG
      rw [rollingMeanIdx_nan p (gainRawIdx close) i (by omega)] at hG
      exact PVal.noConfusion hG
    have hGq : avgGainQ close p i = g := by
      have := avgGainIdx_eq close p i hp hpi
      rw [hG] at this
      exact (PVal.val.inj this).symm
    have hLq : avgLossQ close p i = 0 := by
      have := avgLossIdx_eq close p i hp hpi
      rw [hL] at this
      exact (PVal.val.inj this).symm
    have hG0 : avgGainQ close p i ≠ 0 := by
      rw [hGq]
      exact ne_of_gt hg
    constructor
    · unfold rsIdx
      rw [hG, hL]
      simp [PVal.div, ne_of_gt hg, hg]
    · rw [RSI_getD close short_ma long_ma p i hi,
        rsiIdx_eq close p i hp hpi, if_pos hLq, if_neg hG0]

/-- Claim C1, witness: the all-NaN conclusion applied to the constant
series [5, 5, 5] with p = 2, and the saturation conclusion applied to
the rising series [10, 12, 14] with p = 2, where the gain mean is 2 and
the loss mean is 0. -/
theorem rsi_constant_saturation_witness :
    (calculate_indicators (List.replicate 3 (5 : ℚ)) 20 50 2).RSI.getD 2 PVal.nan
        = PVal.nan
      ∧ (calculate_indicators [10, 12, 14] 20 50 2).RSI.getD 2 PVal.nan = PVal.val 100 :=
  ⟨rsi_constant_all_nan_and_inf_saturation.1 5 3 20 50 2 2 (by norm_num) (by norm_num),
   (rsi_constant_all_nan_and_inf_saturation.2 [10, 12, 14] 20 50 2 2 2 (by norm_num)
      (by norm_num)
      (by
        norm_num [avgGainIdx, rollingMeanIdx, gainRawIdx, deltaIdx, PVal.gt0,
          PVal.add, PVal.div, PVal.isNan, List.range', List.getD])
      (by norm_num)
      (by
        norm_num [avgLossIdx, rollingMeanIdx, lossRawIdx, deltaIdx, PVal.lt0, PVal.neg,
          PVal.add, PVal.div, PVal.isNan, List.range', List.getD])).2⟩

/-- Claim C6: calculate_indicators is deterministic -- two calls with
identical input series and identical short_ma, long_ma and rsi_period
parameters return identical IndicatorSeries. -/
theorem calculate_indicators_deterministic (d1 d2 : List ℚ) (s1 s2 l1 l2 p1 p2 : ℕ)
    (hd : d1 = d2) (hs : s1 = s2) (hl : l1 = l2) (hp : p1 = p2) :
    calculate_indicators d1 s1 l1 p1 = calculate_indicators d2 s2 l2 p2 := by
  rw [hd, hs, hl, hp]

/-- Claim C6, witness: the determinism theorem applied to two identical
concrete calls. -/
theorem calculate_indicators_deterministic_witness :
    calculate_indicators [10, 11] 1 2 1 = calculate_indicators [10, 11] 1 2 1 :=
  calculate_indicators_deterministic [10, 11] [10, 11] 1 1 2 2 1 1 rfl rfl rfl rfl

/-- Claim C7: calculate_indicators does not mutate its input -- in the
state-passing embedding the input series comes back unchanged, and the
result is written into a separately constructed Signals value. -/
theorem calculate_indicators_no_mutation (data : List ℚ)
    (short_ma long_ma rsi_period : ℕ) :
    (calculate_indicators_frame data short_ma long_ma rsi_period).2 = data
      ∧ (calculate_indicators_frame data short_ma long_ma rsi_period).1
          = calculate_indicators data short_ma long_ma rsi_period :=
  ⟨rfl, rfl⟩

/-- Claim C9: both AlphaVantageSource operations are silent stubs --
get_data returns no frame and validate_connection returns no boolean,
with no error raised, for every input; this is exactly the silent empty
result the claim forbids. -/
theorem alphavantage_stub_returns_none (api_key ticker start_date end_date : String) :
    AlphaVantageSource.get_data api_key ticker start_date end_date = none
      ∧ AlphaVantageSource.validate_connection api_key = none :=
  ⟨rfl, rfl⟩

/-- Claim C5: the factory errors exactly on bad configuration -- any
name whose lower-casing is outside the dispatch table yields the
unknown-provider configuration error, the paid provider without an
api_key yields the missing-key configuration error, and the two known
names with the required parameter present construct the matching
variant. -/
theorem factory_error_discipline :
    (∀ (s : String) (k : Option String),
        pyLower s ≠ "yfinance" → pyLower s ≠ "alphavantage" →
        create_data_source s k
          = Except.error (DSError.configurationError ("Unknown data source type: " ++ s)))
  ∧ create_data_source "alphavantage" none
      = Except.error (DSError.configurationError "API key required for Alpha Vantage")
  ∧ (∀ k : Option String, create_data_source "yfinance" k = Except.ok DataSource.yfinance)
  ∧ (∀ key : String, key ≠ "" →
        create_data_source "alphavantage" (some key)
          = Except.ok (DataSource.alphavantage key)) := by
  refine ⟨?_, ?_, ?_, ?_⟩
  · intro s k h1 h2
    unfold create_data_source
    rw [if_neg h1, if_neg h2]
  · decide
  · intro k
    unfold create_data_source
    rw [if_pos (by decide)]
  · intro key hk
    unfold create_data_source
    rw [if_neg (by decide), if_pos (by decide)]
    simp [hk]

/-- Claim C5, witness: an unknown provider name errors with the
unknown-provider message, and the paid provider with a nonempty key
constructs the paid variant. -/
theorem factory_error_discipline_witness :
    create_data_source "bogus" none
        = Except.error (DSError.configurationError "Unknown data source type: bogus")
      ∧ create_data_source "alphavantage" (some "KEY")
        = Except.ok (DataSource.alphavantage "KEY") :=
  ⟨factory_error_discipline.1 "bogus" none (by decide) (by decide),
   factory_error_discipline.2.2.2 "KEY" (by decide)⟩

/-- Claim C8: with the configuration document absent, or present
without the data_source key, get_data_source builds the free-vendor
(yfinance) source. -/
theorem default_provider_yfinance :
    get_data_source none = Except.ok DataSource.yfinance
  ∧ (∀ doc : ConfigDoc, doc.data_source = none →
      get_data_source (some doc) = Except.ok DataSource.yfinance) := by
  constructor
  · decide
  · intro doc h
    unfold get_data_source load_config
    simp only [h]
    decide

/-- Claim C8, witness: a present document without the data_source key
also yields the free-vendor source. -/
theorem default_provider_yfinance_witness :
    get_data_source (some { data_source := none }) = Except.ok DataSource.yfinance :=
  default_provider_yfinance.2 { data_source := none } rfl

theorem char_toNat_ofNat_valid (m : ℕ) (h : m.isValidChar) : (Char.ofNat m).toNat = m := by
  unfold Char.ofNat
  rw [dif_pos h]
  rfl

theorem char_toLower_idem (c : Char) : (c.toLower).toLower = c.toLower := by
  by_cases h : c.toNat ≥ 65 ∧ c.toNat ≤ 90
  · have h1 : c.toLower = Char.ofNat (c.toNat + 32) := by
      unfold Char.toLower
      rw [if_pos h]
    have hv : (c.toNat + 32).isValidChar := Or.inl (by omega)
    have h2 : (c.toLower).toNat = c.toNat + 32 := by
      rw [h1]
      exact char_toNat_ofNat_valid _ hv
    calc (c.toLower).toLower
        = if (c.toLower).toNat ≥ 65 ∧ (c.toLower).toNat ≤ 90 then
            Char.ofNat ((c.toLower).toNat + 32)
          else c.toLower := rfl
      _ = c.toLower := by
          rw [h2]
          exact if_neg (by omega)
  · have h1 : c.toLower = c := by
      unfold Char.toLower
      rw [if_neg h]
    rw [h1, h1]

theorem pyLower_idem (s : String) : pyLower (pyLower s) = pyLower s := by
  unfold pyLower
  have hdata : (String.mk (s.data.map Char.toLower)).data = s.data.map Char.toLower := rfl
  rw [hdata, List.map_map]
  have hfun : Char.toLower ∘ Char.toLower = Char.toLower := by
    funext c
    exact char_toLower_idem c
  rw [hfun]

/-- Claim C10, counterexample: the dispatch outcome is case-insensitive
but the raised error is not literally the same -- for the unknown name
"FOO" the error message embeds the original casing, so it differs from
the error raised for "foo". -/
theorem factory_case_error_message_cex :
    create_data_source "FOO" none ≠ create_data_source "foo" none := by
  decide

/-- Claim C10 (amended): dispatch is case-insensitive up to the error
message -- for every name, create_data_source returns the same variant
as on the lower-cased name, and errors in exactly the same cases (every
error being a ConfigurationError); only the unknown-provider message
text can differ, by embedding the original casing given by the caller. -/
theorem factory_dispatch_case_insensitive_outcome (s : String) (k : Option String) :
    (create_data_source s k).toOption = (create_data_source (pyLower s) k).toOption := by
  unfold create_data_source
  rw [pyLower_idem s]
  by_cases h1 : pyLower s = "yfinance"
  · rw [if_pos h1, if_pos h1]
  · rw [if_neg h1, if_neg h1]
    by_cases h2 : pyLower s = "alphavantage"
    · rw [if_pos h2, if_pos h2]
    · rw [if_neg h2, if_neg h2]
      rfl
